import Mathlib

/-!
Shallow embedding of the `lardwaz/routing` Go repository (resource cacher,
websocket detection and web-app proxy front door), together with proofs of
the specification claims about it.

Modelling conventions:
* Byte slices (`[]byte`) are `List Nat`.
* `http.Header` (`map[string][]string`) is an association list
  `List (String × List String)` with unique keys, and the `Set`/`Add`/`Get`
  operations translated from `net/textproto`, including MIME header key
  canonicalisation.
* The HTTP response writer is a record accumulating headers, the status code
  (first `WriteHeader` wins, a `Write` before it implies 200) and body bytes.
* Network effects are explicit inputs: a fetch receives a `FetchOutcome`
  describing what building the request / performing the call / reading the
  body produced.  Goroutines are not run; the synchronous part of
  `StartFetcher` is modelled and the fact that the background loop was
  spawned is recorded as a flag.
* `crypto/sha1`'s hex digest (`fmt.Sprintf("%x", sha1.Sum b)`) is an external
  library function; it is a parameter `sha1Hex : List Nat → String` of every
  definition that hashes.
-/

/-- Byte slices (`[]byte`). -/
abbrev Bytes := List Nat

/-- UTF-8 bytes of an ASCII string (all strings written by the code are ASCII). -/
def strBytes (s : String) : Bytes := s.data.map Char.toNat

/-- `http.Header`: a map from (canonical) keys to value lists, as an
association list with unique keys. -/
abbrev Header := List (String × List String)

/-- The valid header-field bytes of `net/textproto` (RFC 7230 token chars). -/
def isTokenChar (c : Char) : Bool :=
  c.isAlphanum || "!#$%&'*+-.^_`|~".data.contains c

/-- ASCII upper-casing of one byte, as done bytewise by
`textproto.canonicalMIMEHeaderKey`. -/
def upperChar (c : Char) : Char :=
  if 97 ≤ c.toNat && c.toNat ≤ 122 then Char.ofNat (c.toNat - 32) else c

/-- ASCII lower-casing of one byte. -/
def lowerChar (c : Char) : Char :=
  if 65 ≤ c.toNat && c.toNat ≤ 90 then Char.ofNat (c.toNat + 32) else c

/-- The canonicalisation loop of `textproto.canonicalMIMEHeaderKey`:
upper-case the first byte and every byte following a hyphen, lower-case the
rest. -/
def canonChars : Bool → List Char → List Char
  | _, [] => []
  | up, c :: cs =>
    let c2 := if up then upperChar c else lowerChar c
    c2 :: canonChars (c2 == '-') cs

/-- `textproto.CanonicalMIMEHeaderKey`: keys containing a non-token byte are
returned unchanged, otherwise the case is canonicalised. -/
def canonicalKey (s : String) : String :=
  if s.data.all isTokenChar then String.mk (canonChars true s.data) else s

/-- Go map indexing `m[k]` for a string-keyed map modelled as an
association list with unique keys. -/
def assocFind {α : Type} : List (String × α) → String → Option α
  | [], _ => none
  | (k', v) :: t, k => if k' == k then some v else assocFind t k

/-- Go map assignment `m[k] = v`: replace the entry, or append a new one. -/
def assocStore {α : Type} : List (String × α) → String → α → List (String × α)
  | [], k, v => [(k, v)]
  | (k', v') :: t, k, v =>
    if k' == k then (k, v) :: t else (k', v') :: assocStore t k v

namespace Header

/-- Raw map indexing `h[k]` (no canonicalisation). -/
def find (h : Header) (k : String) : Option (List String) :=
  assocFind h k

/-- Map update `h[k] = vs` for an exact key (Go map assignment). -/
def store (h : Header) (k : String) (vs : List String) : Header :=
  assocStore h k vs

/-- `http.Header.Set`: canonicalise the key and replace its values with the
single given value. -/
def set (h : Header) (k v : String) : Header :=
  store h (canonicalKey k) [v]

/-- `http.Header.Add`: canonicalise the key and append the value. -/
def add (h : Header) (k v : String) : Header :=
  let ck := canonicalKey k
  store h ck (((find h ck).getD []) ++ [v])

/-- `http.Header.Get`: first value under the canonical key, or `""`. -/
def get (h : Header) (k : String) : String :=
  ((find h (canonicalKey k)).getD []).headD ""

end Header

/-- An `http.ResponseWriter` transcript: accumulated headers, the status
code actually sent (`none` until `WriteHeader`/`Write` runs) and the body. -/
structure ResponseRec where
  header : Header
  status : Option Nat
  body : Bytes
  deriving DecidableEq

namespace ResponseRec

/-- The fresh response writer handed to a handler. -/
def empty : ResponseRec := ⟨[], none, []⟩

/-- `w.WriteHeader(s)`: only the first call takes effect. -/
def writeHeader (w : ResponseRec) (s : Nat) : ResponseRec :=
  match w.status with
  | some _ => w
  | none => { w with status := some s }

/-- `w.Write(b)`: an implicit `WriteHeader(200)` if none was sent, then the
bytes are appended to the body. -/
def write (w : ResponseRec) (b : Bytes) : ResponseRec :=
  let w := w.writeHeader 200
  { w with body := w.body ++ b }

/-- `w.Header().Set(k, v)`. -/
def setHeader (w : ResponseRec) (k v : String) : ResponseRec :=
  { w with header := w.header.set k v }

/-- `w.Header().Add(k, v)`. -/
def addHeader (w : ResponseRec) (k v : String) : ResponseRec :=
  { w with header := w.header.add k v }

end ResponseRec

/-- The parts of an `*http.Request` the routing code reads: the `alias`
query values (Go's `url.Values` never stores an empty slice for a present
key, so a present entry is a first value plus the remaining ones) and the
request header. -/
structure Request where
  queryAlias : Option (String × List String)
  header : Header

/-! ## `src/cacher.go` — the SSE-enabled resource cacher -/

namespace Cacher

/-- `Resource` of `src/cacher.go`.  `interval` is a `time.Duration`
(an `int64` count of nanoseconds, hence `Int`).  `allowedOrigins`
distinguishes a nil slice (`none`) from a non-nil one.  `transformFn` is the
optional `TransformFn`.  `running` is the unexported loop flag (`false` in a
freshly constructed resource). -/
structure Resource where
  aliasName : String
  method : String
  url : String
  interval : Int
  content : Bytes
  header : Header
  statusCode : Nat
  hash : String
  allowedOrigins : Option (List String)
  transformFn : Option (Bytes → Bytes)
  running : Bool

/-- What the environment did for one fetch: `http.NewRequest` failed,
`cli.Do` failed, `ioutil.ReadAll` failed, or a response (status, header,
fully read body) was obtained. -/
inductive FetchOutcome where
  | newRequestError (e : String)
  | doError (e : String)
  | readAllError (e : String)
  | success (statusCode : Nat) (header : Header) (body : Bytes)

/-- Result of `Resource.Fetch`: the resource afterwards, the returned
`error` (`none` is Go's `nil`), and the SSE message sent on the resource's
channel, if any (`(channel, payload)`). -/
structure FetchResult where
  res : Resource
  ret : Option String
  sse : Option (String × Bytes)

/-- The body after the optional `TransformFn` is applied. -/
def transformedBody (r : Resource) (b : Bytes) : Bytes :=
  match r.transformFn with
  | some f => f b
  | none => b

/-- `Resource.Fetch` of `src/cacher.go` (lines 40-91), with the network
interaction abstracted into the `FetchOutcome`.  `enableSSE` and
`ssePresent` stand for `r.rc.opts.EnableSSE` and `r.rc.sseServer != nil`. -/
def Resource.fetch (sha1Hex : Bytes → String) (enableSSE ssePresent : Bool)
    (r : Resource) (o : FetchOutcome) : FetchResult :=
  match o with
  | .newRequestError e => ⟨r, some e, none⟩
  | .doError e => ⟨r, some e, none⟩
  | .readAllError e => ⟨r, some e, none⟩
  | .success statusCode respHeader body =>
    let b := transformedBody r body
    let respHeader :=
      match r.transformFn with
      | some _ => respHeader.set "Content-Length" (toString b.length)
      | none => respHeader
    let hash := sha1Hex b
    -- if content is not new, we skip
    if r.hash == hash then ⟨r, none, none⟩
    else
      let hdr := respHeader.set "Etag" hash
      let hdr := hdr.set "Cache-Control"
        ("max-age=" ++ toString (Int.tdiv r.interval 1000000000))
      let r' := { r with
        hash := hash, content := b, statusCode := statusCode, header := hdr }
      let sse := if enableSSE && ssePresent then some (r.aliasName, b) else none
      ⟨r', none, sse⟩

/-- `Resource.isOriginCheckEnabled`. -/
def Resource.isOriginCheckEnabled (r : Resource) : Bool :=
  r.allowedOrigins.isSome && (r.allowedOrigins.getD []).length != 0

/-- `Resource.IsOriginAllowed` of `src/cacher.go` (lines 94-111). -/
def Resource.isOriginAllowed (r : Resource) (origin : String) : Bool :=
  if !r.isOriginCheckEnabled then true
  else if origin == "" then false
  else (r.allowedOrigins.getD []).any (fun o => o == origin)

/-- Result of the synchronous part of `Resource.StartFetcher`: the resource
afterwards, how many synchronous fetches were performed, whether the
background loop goroutine was spawned, and the SSE message of the
synchronous fetch, if any. -/
structure StartResult where
  res : Resource
  fetches : Nat
  loopStarted : Bool
  sse : Option (String × Bytes)

/-- `Resource.StartFetcher` of `src/cacher.go` (lines 119-139): a no-op when
already running; otherwise it sets `running`, calls
`time.NewTicker(r.Interval)`, performs one synchronous fetch (discarding its
error) and spawns the periodic loop.  `time.NewTicker` PANICS on a
non-positive duration, so for `interval ≤ 0` the call never returns
(modelled as `none`): no fetch is performed and no loop is spawned.  (The
`running` flag of the caller's resource has already been assigned when the
panic fires; as the call never returns and the resource is not registered,
nothing modelled here can observe it.) -/
def Resource.startFetcher (sha1Hex : Bytes → String) (enableSSE ssePresent : Bool)
    (r : Resource) (o : FetchOutcome) : Option StartResult :=
  if r.running then some ⟨r, 0, false, none⟩
  else if r.interval ≤ 0 then none
  else
    let r1 := { r with running := true }
    let fr := r1.fetch sha1Hex enableSSE ssePresent o
    some ⟨fr.res, 1, true, fr.sse⟩

/-- The inner loop of `Resource.WriteHeaders`: `for _, v2 := range v {
w.Header().Set(k, v2) }`. -/
def setValues (w : ResponseRec) (k : String) : List String → ResponseRec
  | [] => w
  | v :: vs => setValues (w.setHeader k v) k vs

/-- The outer loop of `Resource.WriteHeaders` over the stored entries. -/
def writeEntries (w : ResponseRec) : Header → ResponseRec
  | [] => w
  | (k, vs) :: rest => writeEntries (setValues w k vs) rest

/-- `Resource.WriteHeaders` (lines 147-153): every stored value is written
with `w.Header().Set`, one `Set` per value (so, per key, later values
overwrite earlier ones). -/
def Resource.writeHeaders (r : Resource) (w : ResponseRec) : ResponseRec :=
  writeEntries w r.header

/-- `ResourceCacher` of `src/cacher.go`: the alias map plus the parts of its
options/SSE server that `Fetch` consults (`opts.EnableSSE`,
`sseServer != nil`). -/
structure ResourceCacher where
  resources : List (String × Resource)
  enableSSE : Bool
  ssePresent : Bool

/-- Map lookup `c.resources[alias]`. -/
def ResourceCacher.lookup (c : ResourceCacher) (a : String) : Option Resource :=
  assocFind c.resources a

/-- Map assignment `c.resources[alias] = res`. -/
def ResourceCacher.insert (c : ResourceCacher) (a : String) (res : Resource) :
    ResourceCacher :=
  { c with resources := assocStore c.resources a res }

end Cacher

namespace Cacher

/-- Result of `ResourceCacher.AddResource`: the cacher afterwards, the
returned `(*Resource, error)` pair, and the synchronous-fetch bookkeeping of
the `StartFetcher` call it makes (zeroed when validation failed before the
call). -/
structure AddResult where
  c : ResourceCacher
  ret : Except String Resource
  fetches : Nat
  loopStarted : Bool
  sse : Option (String × Bytes)

/-- `ResourceCacher.AddResource` of `src/cacher.go` (lines 211-235):
validate alias/method/url non-empty and interval non-zero, then set the
back-pointer, start the fetcher (one synchronous fetch) and insert into the
map.  There is no duplicate-alias check: an existing entry is replaced.
When `StartFetcher` panics (`time.NewTicker` on a non-positive interval),
the panic propagates out of `AddResource`: nothing is inserted and the call
never returns (`none`). -/
def ResourceCacher.addResource (sha1Hex : Bytes → String) (c : ResourceCacher)
    (res : Resource) (o : FetchOutcome) : Option AddResult :=
  if res.aliasName == "" then some ⟨c, .error "missing alias", 0, false, none⟩
  else if res.method == "" then some ⟨c, .error "missing method", 0, false, none⟩
  else if res.url == "" then some ⟨c, .error "missing url", 0, false, none⟩
  else if res.interval == 0 then some ⟨c, .error "invalid interval", 0, false, none⟩
  else
    -- res.rc = c: the fetcher reads c's SSE configuration through it
    match res.startFetcher sha1Hex c.enableSSE c.ssePresent o with
    | none => none
    | some sr =>
      some ⟨c.insert res.aliasName sr.res, .ok sr.res, sr.fetches,
        sr.loopStarted, sr.sse⟩

/-- `getAliasFromRequest` (lines 340-349): the first `alias` query value,
or an error when the query key is absent. -/
def getAliasFromRequest (r : Request) : Except String String :=
  match r.queryAlias with
  | none => .error "Missing alias"
  | some (a, _) => .ok a

/-- `writeCommonHeaders` (lines 331-338): three `Vary` values are added and,
when the request carries a non-empty `Origin`, it is echoed into
`Access-Control-Allow-Origin`. -/
def writeCommonHeaders (w : ResponseRec) (r : Request) : ResponseRec :=
  let w := w.addHeader "Vary" "Origin"
  let w := w.addHeader "Vary" "Access-Control-Request-Method"
  let w := w.addHeader "Vary" "Access-Control-Request-Headers"
  let origin := r.header.get "Origin"
  if origin != "" then w.setHeader "Access-Control-Allow-Origin" origin else w

/-- `ResourceCacher.ServeHTTP` of `src/cacher.go` (lines 294-329).  The
serving path only reads the cacher and the addressed resource, so the
embedding is a pure function of them. -/
def ResourceCacher.serveHTTP (c : ResourceCacher) (r : Request) : ResponseRec :=
  let w := ResponseRec.empty
  match getAliasFromRequest r with
  | .error e => (w.writeHeader 400).write (strBytes e)
  | .ok a =>
    match c.lookup a with
    | none => (w.writeHeader 400).write (strBytes "Invalid alias")
    | some resource =>
      let origin := r.header.get "Origin"
      if !resource.isOriginAllowed origin then
        (w.writeHeader 401).write (strBytes "Invalid Origin")
      else
        let mtch := r.header.get "If-None-Match"
        if mtch != "" && resource.hash == mtch then
          w.writeHeader 304
        else
          let w := writeCommonHeaders w r
          let w := resource.writeHeaders w
          (w.writeHeader resource.statusCode).write resource.content

end Cacher

/-! ## `src/unnamed/part_001` (second unit) — the callback-based cacher

The variant with `ResourceEvent` callbacks instead of SSE.  A callback value
is modelled by whether it is non-nil (`executeUpdateEvents` skips nil
entries), and a fetch result reports how many callbacks were invoked. -/

namespace CacherCb

/-- `Resource` of the callback variant.  `onUpdateEvents` records, for each
chained `ResourceEvent`, whether it is non-nil. -/
structure Resource where
  aliasName : String
  method : String
  url : String
  interval : Int
  content : Bytes
  header : Header
  statusCode : Nat
  hash : String
  allowedOrigins : Option (List String)
  onUpdateEvents : List Bool
  running : Bool
  deriving DecidableEq

/-- `Resource.executeUpdateEvents`: the number of callbacks actually called
(nil entries are skipped). -/
def Resource.executeUpdateEvents (r : Resource) : Nat :=
  (r.onUpdateEvents.filter id).length

/-- Result of the callback variant's `Resource.Fetch`: the resource
afterwards, the returned error, and how many update callbacks ran. -/
structure FetchResult where
  res : Resource
  ret : Option String
  invoked : Nat
  deriving DecidableEq

/-- `Resource.Fetch` of `src/unnamed/part_001` (lines 252-289).  Unlike the
`src/cacher.go` version there is no equal-hash skip: every successful fetch
overwrites content/hash/status/header and runs `executeUpdateEvents`. -/
def Resource.fetch (sha1Hex : Bytes → String) (r : Resource)
    (o : Cacher.FetchOutcome) : FetchResult :=
  match o with
  | .newRequestError e => ⟨r, some e, 0⟩
  | .doError e => ⟨r, some e, 0⟩
  | .readAllError e => ⟨r, some e, 0⟩
  | .success statusCode respHeader body =>
    let hash := sha1Hex body
    let hdr := respHeader.set "Etag" hash
    let hdr := hdr.set "Cache-Control"
      ("max-age=" ++ toString (Int.tdiv r.interval 1000000000))
    let r' := { r with
      hash := hash, content := body, statusCode := statusCode, header := hdr }
    ⟨r', none, r'.executeUpdateEvents⟩

/-- Result of the synchronous part of the callback variant's
`StartFetcher`. -/
structure StartResult where
  res : Resource
  fetches : Nat
  loopStarted : Bool
  invoked : Nat

/-- `Resource.StartFetcher` of `src/unnamed/part_001` (lines 326-351): when
the first synchronous fetch fails, the update events are still executed.
As in the `src/cacher.go` variant, `time.NewTicker` (line 333) PANICS on a
non-positive interval before the fetch, so for `interval ≤ 0` the call
never returns (`none`). -/
def Resource.startFetcher (sha1Hex : Bytes → String) (r : Resource)
    (o : Cacher.FetchOutcome) : Option StartResult :=
  if r.running then some ⟨r, 0, false, 0⟩
  else if r.interval ≤ 0 then none
  else
    let r1 := { r with running := true }
    let fr := r1.fetch sha1Hex o
    match fr.ret with
    | some _ => some ⟨fr.res, 1, true, fr.invoked + fr.res.executeUpdateEvents⟩
    | none => some ⟨fr.res, 1, true, fr.invoked⟩

/-- `ResourceCacher` of the callback variant: the alias map plus whether the
registry-wide hooks are non-nil. -/
structure ResourceCacher where
  resources : List (String × Resource)
  hasOnResourceAdded : Bool
  hasOnResourceUpdated : Bool

/-- Map lookup `c.resources[alias]`. -/
def ResourceCacher.lookup (c : ResourceCacher) (a : String) : Option Resource :=
  assocFind c.resources a

/-- Result of the callback variant's `AddResource`. -/
structure AddResult where
  c : ResourceCacher
  ret : Except String Resource
  fetches : Nat
  invoked : Nat
  addedHookFired : Bool

/-- `ResourceCacher.AddResource` of `src/unnamed/part_001` (lines 405-441):
missing alias, duplicate alias, missing method/url and zero interval are
rejected in that order; on success `onUpdate` and the registry hook are
chained, the `OnResourceAdded` hook fires, the fetcher starts and the map
gains the entry.  A `StartFetcher` panic (non-positive interval) propagates
out of `AddResource`: nothing is inserted and the call never returns
(`none`). -/
def ResourceCacher.addResource (sha1Hex : Bytes → String) (c : ResourceCacher)
    (res : Resource) (onUpdateNonNil : Bool) (o : Cacher.FetchOutcome) :
    Option AddResult :=
  if res.aliasName == "" then some ⟨c, .error "missing alias", 0, 0, false⟩
  else if (c.lookup res.aliasName).isSome then
    some ⟨c, .error "resource already exist", 0, 0, false⟩
  else if res.method == "" then some ⟨c, .error "missing method", 0, 0, false⟩
  else if res.url == "" then some ⟨c, .error "missing url", 0, 0, false⟩
  else if res.interval == 0 then some ⟨c, .error "invalid interval", 0, 0, false⟩
  else
    let res1 := { res with
      onUpdateEvents := res.onUpdateEvents ++ [onUpdateNonNil, c.hasOnResourceUpdated] }
    match res1.startFetcher sha1Hex o with
    | none => none
    | some sr =>
      some ⟨{ c with resources := assocStore c.resources res.aliasName sr.res },
        .ok sr.res, sr.fetches, sr.invoked, c.hasOnResourceAdded⟩

end CacherCb

/-! ## `src/unnamed/part_005` (`IsWebSocket`) and `src/proxy.go` -/

/-- `strings.ToLower`, restricted to its ASCII action (the code only ever
compares the result against ASCII literals). -/
def goToLower (s : String) : String :=
  String.mk (s.data.map lowerChar)

/-- `IsWebSocket` of `src/unnamed/part_005` (lines 88-105): the first
`Connection` value must lower-case to `"upgrade"` and the first `Upgrade`
value must be present and lower-case to `"websocket"`.  The header map is
indexed directly, without canonicalisation, exactly as in the source. -/
def isWebSocket (r : Request) : Bool :=
  let connHdr := ((r.header.find "Connection").getD []).headD ""
  if goToLower connHdr == "upgrade" then
    let upgradeHdrs := (r.header.find "Upgrade").getD []
    if upgradeHdrs.length > 0 then goToLower (upgradeHdrs.headD "") == "websocket"
    else false
  else false

/-- The two handlers `WebAppProxy.ServeHTTP` can dispatch to. -/
inductive Route where
  | duplexBridge
  | standardProxy
  deriving DecidableEq

/-- `WebAppProxy.ServeHTTP` of `src/proxy.go` (lines 17-27), as the routing
decision it makes: `NewWebSocketReverseProxy` exactly when `IsWebSocket`,
else `httputil.NewSingleHostReverseProxy`. -/
def webAppProxyRoute (r : Request) : Route :=
  if isWebSocket r then Route.duplexBridge else Route.standardProxy

/-! ## Lemmas about the header / map operations -/

theorem assocFind_store_self {α : Type} (l : List (String × α)) (k : String) (v : α) :
    assocFind (assocStore l k v) k = some v := by
  induction l with
  | nil => simp [assocStore, assocFind]
  | cons hd t ih =>
    obtain ⟨k', v'⟩ := hd
    by_cases h : k' = k
    · simp [assocStore, assocFind, h]
    · simp [assocStore, assocFind, h, ih]

theorem assocFind_store_other {α : Type} (l : List (String × α)) (k k' : String) (v : α)
    (h : k ≠ k') : assocFind (assocStore l k v) k' = assocFind l k' := by
  induction l with
  | nil => simp [assocStore, assocFind, h]
  | cons hd t ih =>
    obtain ⟨k0, v0⟩ := hd
    by_cases h0 : k0 = k
    · simp [assocStore, assocFind, h0, h]
    · by_cases h1 : k0 = k'
      · simp [assocStore, assocFind, h0, h1, Ne.symm h]
      · simp [assocStore, assocFind, h0, h1, ih]

theorem Header.find_set_self (h : Header) (k v : String) :
    Header.find (Header.set h k v) (canonicalKey k) = some [v] :=
  assocFind_store_self h (canonicalKey k) [v]

theorem Header.find_set_other (h : Header) (k v k' : String) (hne : canonicalKey k ≠ k') :
    Header.find (Header.set h k v) k' = Header.find h k' :=
  assocFind_store_other h (canonicalKey k) k' [v] hne

namespace Cacher

theorem setValues_status (w : ResponseRec) (k : String) (vs : List String) :
    (setValues w k vs).status = w.status := by
  induction vs generalizing w with
  | nil => rfl
  | cons v t ih => simp [setValues, ih, ResponseRec.setHeader]

theorem setValues_body (w : ResponseRec) (k : String) (vs : List String) :
    (setValues w k vs).body = w.body := by
  induction vs generalizing w with
  | nil => rfl
  | cons v t ih => simp [setValues, ih, ResponseRec.setHeader]

theorem writeEntries_status (w : ResponseRec) (l : Header) :
    (writeEntries w l).status = w.status := by
  induction l generalizing w with
  | nil => rfl
  | cons kv t ih =>
    obtain ⟨k, vs⟩ := kv
    simp [writeEntries, ih, setValues_status]

theorem writeEntries_body (w : ResponseRec) (l : Header) :
    (writeEntries w l).body = w.body := by
  induction l generalizing w with
  | nil => rfl
  | cons kv t ih =>
    obtain ⟨k, vs⟩ := kv
    simp [writeEntries, ih, setValues_body]

theorem find_setValues_last (w : ResponseRec) (k : String) (vs : List String) (v : String)
    (h : vs.getLast? = some v) :
    ((setValues w k vs).header).find (canonicalKey k) = some [v] := by
  induction vs generalizing w with
  | nil => simp at h
  | cons v1 t ih =>
    match t, h with
    | [], h =>
      simp only [List.getLast?_singleton, Option.some.injEq] at h
      subst h
      simpa [setValues, ResponseRec.setHeader] using Header.find_set_self w.header k v1
    | v2 :: t2, h =>
      rw [List.getLast?_cons_cons] at h
      simpa [setValues] using ih h (w := w.setHeader k v1)

theorem find_setValues_other (w : ResponseRec) (k : String) (vs : List String) (k' : String)
    (hne : canonicalKey k ≠ k') :
    ((setValues w k vs).header).find k' = w.header.find k' := by
  induction vs generalizing w with
  | nil => rfl
  | cons v t ih =>
    calc ((setValues (w.setHeader k v) k t).header).find k'
        = ((w.setHeader k v).header).find k' := ih (w.setHeader k v)
      _ = w.header.find k' := Header.find_set_other w.header k v k' hne

theorem find_writeEntries_notmem (w : ResponseRec) (l : Header) (k : String)
    (h : ∀ kv ∈ l, canonicalKey kv.1 ≠ k) :
    ((writeEntries w l).header).find k = w.header.find k := by
  induction l generalizing w with
  | nil => rfl
  | cons kv t ih =>
    obtain ⟨k0, vs0⟩ := kv
    have h0 : canonicalKey k0 ≠ k := h (k0, vs0) (List.mem_cons_self _ _)
    have ht : ∀ kv ∈ t, canonicalKey kv.1 ≠ k := fun kv hkv => h kv (List.mem_cons_of_mem _ hkv)
    calc ((writeEntries (setValues w k0 vs0) t).header).find k
        = ((setValues w k0 vs0).header).find k := ih _ ht
      _ = w.header.find k := find_setValues_other w k0 vs0 k h0

theorem find_writeEntries_mem (k : String) (vs : List String) (v : String)
    (hlast : vs.getLast? = some v) :
    ∀ (l : Header) (w : ResponseRec),
      (∀ kv ∈ l, canonicalKey kv.1 = kv.1) →
      l.Pairwise (fun a b => a.1 ≠ b.1) →
      (k, vs) ∈ l →
      ((writeEntries w l).header).find k = some [v] := by
  intro l
  induction l with
  | nil => intro w _ _ hmem; simp at hmem
  | cons kv t ih =>
    intro w hcanon hdist hmem
    obtain ⟨k0, vs0⟩ := kv
    rcases List.mem_cons.mp hmem with heq | hmem'
    · rw [Prod.mk.injEq] at heq
      obtain ⟨hk, hvs⟩ := heq
      subst hk; subst hvs
      have hck : canonicalKey k = k := hcanon (k, vs) (List.mem_cons_self _ _)
      have hrest : ∀ kv ∈ t, canonicalKey kv.1 ≠ k := by
        intro kv hkv
        have hne : k ≠ kv.1 := (List.pairwise_cons.mp hdist).1 kv hkv
        rw [hcanon kv (List.mem_cons_of_mem _ hkv)]
        exact fun hcontr => hne hcontr.symm
      calc ((writeEntries (setValues w k vs) t).header).find k
          = ((setValues w k vs).header).find k := find_writeEntries_notmem _ t k hrest
        _ = some [v] := by
              have h2 := find_setValues_last w k vs v hlast
              rw [hck] at h2
              exact h2
    · exact ih (setValues w k0 vs0) (fun kv hkv => hcanon kv (List.mem_cons_of_mem _ hkv))
        (List.pairwise_cons.mp hdist).2 hmem'

end Cacher

/-! ## Sample concrete inputs for witnesses and counterexamples -/

/-- A concrete valid resource (fresh, zero-valued cache fields except a
preset hash `"h"`). -/
def sampleRes : Cacher.Resource :=
  ⟨"a", "GET", "http://u/x", 1000000000, [], [], 0, "h", none, none, false⟩

/-- A concrete resource of the callback variant holding content `[42]` with
hash `"h"` and one non-nil update callback. -/
def cbSampleRes : CacherCb.Resource :=
  ⟨"a", "GET", "http://u/x", 1000000000, [42], [("Date", ["x"])], 200, "h",
    none, [true], true⟩

/-! ## Claim theorems -/

/-- C1 (amended): in the `src/cacher.go` `Fetch`, a successful fetch whose
(possibly transformed) body hashes to the currently stored hash leaves the
resource completely unchanged (content, hash, status code, header), returns
nil and emits no SSE message. -/
theorem C1_fetch_same_hash_is_noop (sha1Hex : Bytes → String)
    (enableSSE ssePresent : Bool) (r : Cacher.Resource)
    (statusCode : Nat) (respHeader : Header) (body : Bytes)
    (h : sha1Hex (Cacher.transformedBody r body) = r.hash) :
    r.fetch sha1Hex enableSSE ssePresent (.success statusCode respHeader body) =
      ⟨r, none, none⟩ := by
  simp [Cacher.Resource.fetch, h]

/-- Witness for C1 at a concrete input. -/
theorem C1_fetch_same_hash_is_noop_witness :
    (fun _ => "h") (Cacher.transformedBody sampleRes [1, 2]) = sampleRes.hash ∧
    Cacher.Resource.fetch (fun _ => "h") true true sampleRes
      (.success 200 [] [1, 2]) = ⟨sampleRes, none, none⟩ :=
  ⟨rfl, C1_fetch_same_hash_is_noop (fun _ => "h") true true sampleRes 200 [] [1, 2] rfl⟩

/-- C1 is false of the callback variant (`src/unnamed/part_001`,
`Resource.Fetch`): at this concrete input the fetched body `[42]` hashes to
the stored hash, yet one update callback is invoked and the stored header
is overwritten with the new response header. -/
theorem C1_cb_fetch_notifies_despite_same_hash :
    (fun _ => "h") ([42] : Bytes) = cbSampleRes.hash ∧
    (CacherCb.Resource.fetch (fun _ => "h") cbSampleRes
      (.success 200 [("Date", ["y"])] [42])).invoked = 1 ∧
    (CacherCb.Resource.fetch (fun _ => "h") cbSampleRes
      (.success 200 [("Date", ["y"])] [42])).res.header ≠ cbSampleRes.header := by
  refine ⟨rfl, rfl, ?_⟩
  decide

/-- C7: on each of the three failure points of `Resource.Fetch`
(`http.NewRequest`, `cli.Do`, `ioutil.ReadAll`), the error is returned and
the stored content, hash, header and status code are exactly as before the
call, and no SSE message is emitted. -/
theorem C7_fetch_error_preserves_state (sha1Hex : Bytes → String)
    (enableSSE ssePresent : Bool) (r : Cacher.Resource) (e : String) :
    r.fetch sha1Hex enableSSE ssePresent (.newRequestError e) = ⟨r, some e, none⟩ ∧
    r.fetch sha1Hex enableSSE ssePresent (.doError e) = ⟨r, some e, none⟩ ∧
    r.fetch sha1Hex enableSSE ssePresent (.readAllError e) = ⟨r, some e, none⟩ :=
  ⟨rfl, rfl, rfl⟩

/-- The origin-scanning loop of `IsOriginAllowed` finds a match exactly when
the origin is literally in the list. -/
theorem any_beq_iff_mem (l : List String) (s : String) :
    l.any (fun o => o == s) = true ↔ s ∈ l := by
  constructor
  · intro h
    obtain ⟨x, hx, he⟩ := List.any_eq_true.mp h
    exact (beq_iff_eq.mp he) ▸ hx
  · intro hs
    exact List.any_eq_true.mpr ⟨s, hs, beq_iff_eq.mpr rfl⟩

/-- C4: `IsOriginAllowed` accepts every origin (including the empty one)
when the allow-list is nil or empty, and otherwise accepts exactly the
non-empty origins that are literally contained in the list. -/
theorem C4_isOriginAllowed_spec (r : Cacher.Resource) (origin : String) :
    r.isOriginAllowed origin = true ↔
      (r.allowedOrigins.getD [] = [] ∨
        (origin ≠ "" ∧ origin ∈ r.allowedOrigins.getD [])) := by
  unfold Cacher.Resource.isOriginAllowed Cacher.Resource.isOriginCheckEnabled
  rcases r.allowedOrigins with _ | l
  · simp
  · cases l with
    | nil => simp
    | cons a t =>
      by_cases h : origin = ""
      · simp [h]
      · simp [h, any_beq_iff_mem]
        exact or_congr eq_comm Iff.rfl

/-- Characterisation of `IsWebSocket`: the first `Connection` value must
lower-case to `upgrade`, and a first `Upgrade` value must exist and
lower-case to `websocket`. -/
theorem isWebSocket_iff (r : Request) :
    isWebSocket r = true ↔
      ((∃ cv crest, r.header.find "Connection" = some (cv :: crest) ∧
          goToLower cv = "upgrade") ∧
        (∃ v rest, r.header.find "Upgrade" = some (v :: rest) ∧
          goToLower v = "websocket")) := by
  have hg : goToLower "" = "" := by decide
  unfold isWebSocket
  rcases hcf : r.header.find "Connection" with _ | cvs
  · simp [hg]
  · cases cvs with
    | nil => simp [hg]
    | cons cv crest =>
      by_cases hcu : goToLower cv = "upgrade"
      · rcases huf : r.header.find "Upgrade" with _ | vs
        · simp [hcu]
        · cases vs with
          | nil => simp [hcu]
          | cons v rest => simp [hcu]
      · simp [hcu]

/-- C8 (amended): the front door routes a request to the duplex (websocket)
bridge iff the first `Connection` value equals `upgrade` case-insensitively
AND the `Upgrade` header is present with a first value equal to `websocket`
case-insensitively; every other request goes to the standard single-host
reverse proxy. -/
theorem C8_route_iff (r : Request) :
    webAppProxyRoute r = Route.duplexBridge ↔
      ((∃ cv crest, r.header.find "Connection" = some (cv :: crest) ∧
          goToLower cv = "upgrade") ∧
        (∃ v rest, r.header.find "Upgrade" = some (v :: rest) ∧
          goToLower v = "websocket")) := by
  rw [← isWebSocket_iff]
  unfold webAppProxyRoute
  by_cases hb : isWebSocket r = true
  · simp [hb]
  · simp [Bool.not_eq_true] at hb
    simp [hb]

/-- A request with `Connection: upgrade` and `Upgrade: h2c`. -/
def upgradeH2cRequest : Request :=
  ⟨none, [("Connection", ["upgrade"]), ("Upgrade", ["h2c"])]⟩

/-- C8 counterexample: this request satisfies the claimed detection rule
(`Connection` equals `upgrade` case-insensitively and `Upgrade` is present)
yet `WebAppProxy.ServeHTTP` routes it to the standard proxy, because the
code additionally requires the `Upgrade` value to be `websocket`. -/
theorem C8_counterexample :
    goToLower (((upgradeH2cRequest.header.find "Connection").getD []).headD "")
        = "upgrade" ∧
    (upgradeH2cRequest.header.find "Upgrade").isSome = true ∧
    webAppProxyRoute upgradeH2cRequest = Route.standardProxy := by
  refine ⟨by decide, by decide, by decide⟩

/-- A resource with hash `"h"` and non-empty content, addressable as `a`. -/
def condRes : Cacher.Resource :=
  ⟨"a", "GET", "http://u/x", 1000000000, [1, 2, 3], [("Etag", ["h"])], 200, "h",
    none, none, true⟩

/-- A cacher holding only `condRes` under alias `a`. -/
def condCacher : Cacher.ResourceCacher := ⟨[("a", condRes)], false, false⟩

/-- A request for alias `a` carrying `If-None-Match: h`. -/
def condReq : Request := ⟨some ("a", []), [("If-None-Match", ["h"])]⟩

/-- C3 (amended): for a known alias and an allowed origin, when the request
carries a non-empty `If-None-Match` equal to the resource's current hash,
`ServeHTTP` responds 304 with an empty body and writes nothing else,
whatever the stored content is. -/
theorem C3_conditional_match_304 (c : Cacher.ResourceCacher) (req : Request)
    (a : String) (res : Cacher.Resource)
    (ha : Cacher.getAliasFromRequest req = .ok a)
    (hres : c.lookup a = some res)
    (horig : res.isOriginAllowed (req.header.get "Origin") = true)
    (hmatch : req.header.get "If-None-Match" = res.hash)
    (hne : res.hash ≠ "") :
    c.serveHTTP req = ⟨[], some 304, []⟩ := by
  unfold Cacher.ResourceCacher.serveHTTP
  rw [ha]
  simp only [hres]
  simp [horig, ← hmatch, hne, ResponseRec.empty, ResponseRec.writeHeader]
  intro hcontr
  exact absurd (hmatch.symm.trans hcontr) hne

/-- Witness for C3 at a concrete input. -/
theorem C3_conditional_match_304_witness :
    Cacher.getAliasFromRequest condReq = .ok "a" ∧
    condCacher.lookup "a" = some condRes ∧
    condRes.isOriginAllowed (condReq.header.get "Origin") = true ∧
    condReq.header.get "If-None-Match" = condRes.hash ∧
    condRes.hash ≠ "" ∧
    condCacher.serveHTTP condReq = ⟨[], some 304, []⟩ :=
  ⟨rfl, rfl, rfl, rfl, by decide,
    C3_conditional_match_304 condCacher condReq "a" condRes rfl rfl rfl rfl
      (by decide)⟩

/-- A resource whose hash is still the zero value `""` (as after a failed
first fetch, or as constructible directly since the fields are exported). -/
def emptyHashRes : Cacher.Resource :=
  ⟨"a", "GET", "http://u/x", 1000000000, [7], [], 200, "", none, none, true⟩

/-- A cacher holding only `emptyHashRes` under alias `a`. -/
def emptyHashCacher : Cacher.ResourceCacher := ⟨[("a", emptyHashRes)], false, false⟩

/-- A request for alias `a` with no `If-None-Match` header at all. -/
def noINMReq : Request := ⟨some ("a", []), []⟩

/-- C3 counterexample: here the request's `If-None-Match` (absent, so read
as `""`) equals the resource's current hash `""`, but instead of a 304 with
empty body the code serves the full 200 response with the stored content,
because the code only honours a non-empty `If-None-Match`. -/
theorem C3_counterexample :
    noINMReq.header.get "If-None-Match" = emptyHashRes.hash ∧
    (emptyHashCacher.serveHTTP noINMReq).status = some 200 ∧
    (emptyHashCacher.serveHTTP noINMReq).body = [7] := by
  refine ⟨by decide, by decide, by decide⟩

/-- C10: on the conditional-match path the serving code writes no headers at
all — none of the stored headers (including the injected Etag and
Cache-Control) and none of the Vary / Access-Control-Allow-Origin headers —
and no body bytes; only the 304 status is sent.  The embedding of
`ServeHTTP` is a pure read of the cacher state, mirroring the source, which
never writes to the resource on any serving path. -/
theorem C10_conditional_match_writes_nothing (c : Cacher.ResourceCacher)
    (req : Request) (a : String) (res : Cacher.Resource)
    (ha : Cacher.getAliasFromRequest req = .ok a)
    (hres : c.lookup a = some res)
    (horig : res.isOriginAllowed (req.header.get "Origin") = true)
    (hmatch : req.header.get "If-None-Match" = res.hash)
    (hne : res.hash ≠ "") :
    (c.serveHTTP req).header = [] ∧ (c.serveHTTP req).status = some 304 ∧
      (c.serveHTTP req).body = [] := by
  have h : c.serveHTTP req = ⟨[], some 304, []⟩ := by
    unfold Cacher.ResourceCacher.serveHTTP
    rw [ha]
    simp only [hres]
    simp [horig, ← hmatch, hne, ResponseRec.empty, ResponseRec.writeHeader]
    intro hcontr
    exact absurd (hmatch.symm.trans hcontr) hne
  rw [h]
  exact ⟨rfl, rfl, rfl⟩

/-- Witness for C10 at a concrete input. -/
theorem C10_conditional_match_writes_nothing_witness :
    Cacher.getAliasFromRequest condReq = .ok "a" ∧
    condCacher.lookup "a" = some condRes ∧
    condRes.isOriginAllowed (condReq.header.get "Origin") = true ∧
    condReq.header.get "If-None-Match" = condRes.hash ∧
    condRes.hash ≠ "" ∧
    ((condCacher.serveHTTP condReq).header = [] ∧
      (condCacher.serveHTTP condReq).status = some 304 ∧
      (condCacher.serveHTTP condReq).body = []) :=
  ⟨rfl, rfl, rfl, rfl, by decide,
    C10_conditional_match_writes_nothing condCacher condReq "a" condRes rfl rfl
      rfl rfl (by decide)⟩

/-- Reading back the Etag injected by a fetch: setting `Etag` and then
`Cache-Control` leaves `Etag` retrievable. -/
theorem get_etag_after_fetch_sets (h : Header) (v u : String) :
    Header.get ((h.set "Etag" v).set "Cache-Control" u) "Etag" = v := by
  unfold Header.get
  rw [Header.find_set_other _ _ _ _ (by decide), Header.find_set_self]
  rfl

/-- `TransformFn` is not affected by flipping the `running` flag. -/
theorem transformedBody_set_running (r : Cacher.Resource) (b : Bytes) (x : Bool) :
    Cacher.transformedBody { r with running := x } b =
      Cacher.transformedBody r b := rfl

/-- A successful fetch with a genuinely new hash populates all four cached
fields from the response (with the injected `Etag`) and returns nil. -/
theorem fetch_success_populates (sha1Hex : Bytes → String) (esse ssep : Bool)
    (r : Cacher.Resource) (sc : Nat) (respHeader : Header) (body : Bytes)
    (hnew : sha1Hex (Cacher.transformedBody r body) ≠ r.hash) :
    (r.fetch sha1Hex esse ssep (.success sc respHeader body)).ret = none ∧
    (r.fetch sha1Hex esse ssep (.success sc respHeader body)).res.content =
      Cacher.transformedBody r body ∧
    (r.fetch sha1Hex esse ssep (.success sc respHeader body)).res.hash =
      sha1Hex (Cacher.transformedBody r body) ∧
    (r.fetch sha1Hex esse ssep (.success sc respHeader body)).res.statusCode = sc ∧
    Header.get
      (r.fetch sha1Hex esse ssep (.success sc respHeader body)).res.header "Etag" =
      sha1Hex (Cacher.transformedBody r body) := by
  have hskip : (r.hash == sha1Hex (Cacher.transformedBody r body)) = false := by
    rw [beq_eq_false_iff_ne]
    exact fun hcontr => hnew hcontr.symm
  simp only [Cacher.Resource.fetch, hskip]
  exact ⟨rfl, rfl, rfl, rfl, get_etag_after_fetch_sets _ _ _⟩

/-- C2 (amended): a registration accepted by `AddResource` (non-empty
alias/method/url, POSITIVE interval, fresh resource) performs exactly one
synchronous fetch inside the call, spawns the loop and returns normally;
when that fetch succeeds and its (possibly transformed) body hashes
differently from the resource's initial hash, the returned resource — also
inserted under its alias — carries the fetched content, hash, status code
and header (with the injected Etag) before `AddResource` returns. -/
theorem C2_addResource_synchronous_populate (sha1Hex : Bytes → String)
    (c : Cacher.ResourceCacher) (res : Cacher.Resource)
    (statusCode : Nat) (respHeader : Header) (body : Bytes)
    (halias : res.aliasName ≠ "") (hmethod : res.method ≠ "")
    (hurl : res.url ≠ "") (hint : 0 < res.interval)
    (hrun : res.running = false)
    (hnew : sha1Hex (Cacher.transformedBody res body) ≠ res.hash) :
    ∃ out, c.addResource sha1Hex res (.success statusCode respHeader body)
        = some out ∧
      out.fetches = 1 ∧ out.loopStarted = true ∧
      ∃ r', out.ret = .ok r' ∧
        out.c.lookup res.aliasName = some r' ∧
        r'.content = Cacher.transformedBody res body ∧
        r'.hash = sha1Hex (Cacher.transformedBody res body) ∧
        r'.statusCode = statusCode ∧
        Header.get r'.header "Etag" = r'.hash := by
  have hmain := fetch_success_populates sha1Hex c.enableSSE c.ssePresent
    { res with running := true } statusCode respHeader body
    (by simpa [transformedBody_set_running] using hnew)
  rw [transformedBody_set_running] at hmain
  obtain ⟨hret, hcontent, hhash, hsc, hetag⟩ := hmain
  unfold Cacher.ResourceCacher.addResource
  rw [if_neg (by simpa using halias), if_neg (by simpa using hmethod),
    if_neg (by simpa using hurl), if_neg (by simpa using hint.ne')]
  unfold Cacher.Resource.startFetcher
  rw [if_neg (by simp [hrun]), if_neg (not_le.mpr hint)]
  exact ⟨_, rfl, rfl, rfl, _, rfl, assocFind_store_self _ _ _, hcontent,
    hhash, hsc, hetag.trans hhash.symm⟩

/-- A freshly constructed, valid, zero-valued resource under alias `a`. -/
def freshRes : Cacher.Resource :=
  ⟨"a", "GET", "http://u/x", 1000000000, [], [], 0, "", none, none, false⟩

/-- An empty cacher with SSE disabled. -/
def emptyCacher : Cacher.ResourceCacher := ⟨[], false, false⟩

/-- Witness for C2 at a concrete input. -/
theorem C2_addResource_synchronous_populate_witness :
    freshRes.aliasName ≠ "" ∧ freshRes.method ≠ "" ∧ freshRes.url ≠ "" ∧
    0 < freshRes.interval ∧ freshRes.running = false ∧
    (fun _ => "x") (Cacher.transformedBody freshRes [5]) ≠ freshRes.hash ∧
    (∃ out, emptyCacher.addResource (fun _ => "x") freshRes
        (.success 200 [] [5]) = some out ∧
      out.fetches = 1 ∧ out.loopStarted = true ∧
      ∃ r', out.ret = .ok r' ∧
        out.c.lookup freshRes.aliasName = some r' ∧
        r'.content = Cacher.transformedBody freshRes [5] ∧
        r'.hash = (fun _ => "x") (Cacher.transformedBody freshRes [5]) ∧
        r'.statusCode = 200 ∧
        Header.get r'.header "Etag" = r'.hash) :=
  ⟨by decide, by decide, by decide, by decide, rfl, by decide,
    C2_addResource_synchronous_populate (fun _ => "x") emptyCacher freshRes 200 [] [5]
      (by decide) (by decide) (by decide) (by decide) rfl (by decide)⟩

/-- C2 counterexample: the same valid registration (interval 1s) whose
synchronous fetch fails with a transport error: `AddResource` still
returns success, but nothing was populated — hash, status code, content
and header all keep their zero values when `AddResource` returns. -/
theorem C2_counterexample :
    ∃ out r', emptyCacher.addResource (fun _ => "d") freshRes
        (.doError "connection refused") = some out ∧
      out.ret = .ok r' ∧
      r'.hash = "" ∧ r'.statusCode = 0 ∧ r'.content = [] ∧ r'.header = [] :=
  ⟨_, _, rfl, rfl, rfl, rfl, rfl, rfl⟩

/-- C5 (amended, proved of the callback variant `src/unnamed/part_001`,
whose `AddResource` is the one with a duplicate check): registering a
resource under an already-taken alias fails with an error, performs no
fetch, invokes no callback and leaves the registry — including the
previously registered resource — unmodified.  The `src/cacher.go` variant
has no duplicate check at all (see the counterexample). -/
theorem C5_cb_duplicate_alias_rejected (sha1Hex : Bytes → String)
    (c : CacherCb.ResourceCacher) (res : CacherCb.Resource) (onUp : Bool)
    (o : Cacher.FetchOutcome) (r0 : CacherCb.Resource)
    (hdup : c.lookup res.aliasName = some r0) :
    ∃ out, c.addResource sha1Hex res onUp o = some out ∧
      out.c = c ∧
      (∃ e, out.ret = .error e) ∧
      out.fetches = 0 ∧
      out.invoked = 0 ∧
      out.c.lookup res.aliasName = some r0 := by
  unfold CacherCb.ResourceCacher.addResource
  by_cases ha : res.aliasName = ""
  · rw [if_pos (by simp [ha])]
    exact ⟨_, rfl, rfl, ⟨"missing alias", rfl⟩, rfl, rfl, hdup⟩
  · rw [if_neg (by simpa using ha), if_pos (by simp [hdup])]
    exact ⟨_, rfl, rfl, ⟨"resource already exist", rfl⟩, rfl, rfl, hdup⟩

/-- A fresh valid resource of the callback variant under alias `a`. -/
def cbFreshRes : CacherCb.Resource :=
  ⟨"a", "GET", "http://u/x", 1000000000, [], [], 0, "", none, [], false⟩

/-- A callback-variant cacher already holding `cbSampleRes` under alias `a`. -/
def cbCacher : CacherCb.ResourceCacher := ⟨[("a", cbSampleRes)], false, false⟩

/-- Witness for C5 at a concrete input. -/
theorem C5_cb_duplicate_alias_rejected_witness :
    cbCacher.lookup cbFreshRes.aliasName = some cbSampleRes ∧
    (∃ out, cbCacher.addResource (fun _ => "d") cbFreshRes false
        (.doError "e") = some out ∧
      out.c = cbCacher ∧
      (∃ e, out.ret = .error e) ∧
      out.fetches = 0 ∧
      out.invoked = 0 ∧
      out.c.lookup cbFreshRes.aliasName = some cbSampleRes) :=
  ⟨rfl, C5_cb_duplicate_alias_rejected (fun _ => "d") cbCacher cbFreshRes false
    (.doError "e") cbSampleRes rfl⟩

/-- A marker resource (status code 7) registered under alias `a`. -/
def dupMarkerRes : Cacher.Resource :=
  ⟨"a", "GET", "http://u/x", 1000000000, [9], [], 7, "h0", none, none, true⟩

/-- A `src/cacher.go` cacher already holding `dupMarkerRes` under alias `a`. -/
def dupCacher : Cacher.ResourceCacher := ⟨[("a", dupMarkerRes)], false, false⟩

/-- C5 counterexample: in `src/cacher.go`, `AddResource` has no
duplicate-alias check — registering a second resource under the taken alias
`a` succeeds and replaces the stored entry (its status-code marker 7 is
gone afterwards). -/
theorem C5_counterexample :
    dupCacher.lookup "a" = some dupMarkerRes ∧
    (∃ out r', dupCacher.addResource (fun _ => "d") freshRes
        (.doError "e") = some out ∧
      out.ret = .ok r' ∧
      (out.c.lookup "a").map Cacher.Resource.statusCode = some 0) ∧
    dupMarkerRes.statusCode = 7 :=
  ⟨rfl, ⟨_, _, rfl, rfl, rfl⟩, rfl⟩

/-- A fresh resource with a negative interval (a `time.Duration` is a
signed `int64`). -/
def negIntervalRes : Cacher.Resource :=
  ⟨"a", "GET", "http://u/x", -5, [], [], 0, "", none, none, false⟩

/-- C6 (amended): `AddResource` rejects an empty alias, method or url and a
ZERO interval with a validation error, leaving the registry untouched,
performing no fetch and starting no loop.  A strictly negative interval is
not caught by validation (the code only compares with 0): for a fresh
resource the call then panics in `time.NewTicker` inside `StartFetcher`,
before any fetch or map insert — no validation error is returned and
`AddResource` never returns at all. -/
theorem C6_addResource_validation (sha1Hex : Bytes → String)
    (c : Cacher.ResourceCacher) (res : Cacher.Resource)
    (o : Cacher.FetchOutcome) :
    ((res.aliasName = "" ∨ res.method = "" ∨ res.url = "" ∨ res.interval = 0) →
      ∃ e, c.addResource sha1Hex res o = some ⟨c, .error e, 0, false, none⟩) ∧
    (res.aliasName ≠ "" → res.method ≠ "" → res.url ≠ "" →
      res.interval < 0 → res.running = false →
      c.addResource sha1Hex res o = none) := by
  constructor
  · intro h
    unfold Cacher.ResourceCacher.addResource
    by_cases h1 : res.aliasName = ""
    · exact ⟨"missing alias", by simp [h1]⟩
    · by_cases h2 : res.method = ""
      · exact ⟨"missing method", by simp [h1, h2]⟩
      · by_cases h3 : res.url = ""
        · exact ⟨"missing url", by simp [h1, h2, h3]⟩
        · by_cases h4 : res.interval = 0
          · exact ⟨"invalid interval", by simp [h1, h2, h3, h4]⟩
          · rcases h with h | h | h | h <;> contradiction
  · intro h1 h2 h3 h4 h5
    unfold Cacher.ResourceCacher.addResource
    rw [if_neg (by simpa using h1), if_neg (by simpa using h2),
      if_neg (by simpa using h3), if_neg (by simpa using h4.ne)]
    unfold Cacher.Resource.startFetcher
    rw [if_neg (by simp [h5]), if_pos (le_of_lt h4)]

/-- Witness for C6 at two concrete inputs: an empty alias (validation
error) and a negative interval (panic, no return). -/
theorem C6_addResource_validation_witness :
    (({ freshRes with aliasName := "" } : Cacher.Resource).aliasName = "" ∧
      ∃ e, emptyCacher.addResource (fun _ => "d")
          { freshRes with aliasName := "" } (.doError "x") =
        some ⟨emptyCacher, .error e, 0, false, none⟩) ∧
    (negIntervalRes.aliasName ≠ "" ∧ negIntervalRes.method ≠ "" ∧
      negIntervalRes.url ≠ "" ∧ negIntervalRes.interval < 0 ∧
      negIntervalRes.running = false ∧
      emptyCacher.addResource (fun _ => "d") negIntervalRes
        (.doError "x") = none) :=
  ⟨⟨rfl, (C6_addResource_validation (fun _ => "d") emptyCacher
      { freshRes with aliasName := "" } (.doError "x")).1 (Or.inl rfl)⟩,
    by decide, by decide, by decide, by decide, rfl,
    (C6_addResource_validation (fun _ => "d") emptyCacher negIntervalRes
      (.doError "x")).2 (by decide) (by decide) (by decide) (by decide) rfl⟩

/-- C6 counterexample: at interval -5ns — not strictly greater than zero —
`AddResource` does NOT return a validation error: validation passes (only
`== 0` is compared) and the call panics in `time.NewTicker` inside
`StartFetcher`, before any fetch or map insert, never returning. -/
theorem C6_counterexample :
    negIntervalRes.interval < 0 ∧
    emptyCacher.addResource (fun _ => "d") negIntervalRes (.doError "e") = none :=
  ⟨by decide, rfl⟩

/-- `writeCommonHeaders` never touches the status. -/
theorem wch_status (w : ResponseRec) (r : Request) :
    (Cacher.writeCommonHeaders w r).status = w.status := by
  simp only [Cacher.writeCommonHeaders]
  split <;> rfl

/-- `writeCommonHeaders` never touches the body. -/
theorem wch_body (w : ResponseRec) (r : Request) :
    (Cacher.writeCommonHeaders w r).body = w.body := by
  simp only [Cacher.writeCommonHeaders]
  split <;> rfl

/-- The three `Vary` additions on a fresh writer produce one `Vary` entry
with the three values. -/
theorem wch_vary_base :
    ((ResponseRec.empty.addHeader "Vary" "Origin").addHeader "Vary"
        "Access-Control-Request-Method").addHeader "Vary"
        "Access-Control-Request-Headers" =
      ⟨[("Vary", ["Origin", "Access-Control-Request-Method",
        "Access-Control-Request-Headers"])], none, []⟩ := by decide

/-- After `writeCommonHeaders` on a fresh writer, `Vary` holds exactly the
three added values. -/
theorem wch_empty_find_vary (r : Request) :
    ((Cacher.writeCommonHeaders ResponseRec.empty r).header).find "Vary" =
      some ["Origin", "Access-Control-Request-Method",
        "Access-Control-Request-Headers"] := by
  simp only [Cacher.writeCommonHeaders]
  rw [wch_vary_base]
  split
  · exact (Header.find_set_other _ _ _ _ (by decide)).trans (by decide)
  · decide

/-- After `writeCommonHeaders` on a fresh writer, a non-empty request
`Origin` is echoed in `Access-Control-Allow-Origin`. -/
theorem wch_empty_find_acao_pos (r : Request)
    (h : Header.get r.header "Origin" ≠ "") :
    ((Cacher.writeCommonHeaders ResponseRec.empty r).header).find
        "Access-Control-Allow-Origin" = some [Header.get r.header "Origin"] := by
  simp only [Cacher.writeCommonHeaders]
  rw [wch_vary_base, if_pos (by simpa using h)]
  have h2 := Header.find_set_self
    [("Vary", ["Origin", "Access-Control-Request-Method",
      "Access-Control-Request-Headers"])]
    "Access-Control-Allow-Origin" (Header.get r.header "Origin")
  rw [show canonicalKey "Access-Control-Allow-Origin" =
    "Access-Control-Allow-Origin" from by decide] at h2
  exact h2

/-- After `writeCommonHeaders` on a fresh writer, no
`Access-Control-Allow-Origin` is present when the request has no Origin. -/
theorem wch_empty_find_acao_neg (r : Request)
    (h : Header.get r.header "Origin" = "") :
    ((Cacher.writeCommonHeaders ResponseRec.empty r).header).find
        "Access-Control-Allow-Origin" = none := by
  simp only [Cacher.writeCommonHeaders]
  rw [wch_vary_base, if_neg (by simp [h])]
  decide

/-- `WriteHeader` then `Write` on a not-yet-committed writer commits the
given status. -/
theorem full_write_status (w : ResponseRec) (sc : Nat) (b : Bytes)
    (h : w.status = none) : ((w.writeHeader sc).write b).status = some sc := by
  simp [ResponseRec.write, ResponseRec.writeHeader, h]

/-- `WriteHeader` then `Write` appends exactly the written bytes. -/
theorem full_write_body (w : ResponseRec) (sc : Nat) (b : Bytes) :
    ((w.writeHeader sc).write b).body = w.body ++ b := by
  unfold ResponseRec.write ResponseRec.writeHeader
  rcases hs : w.status <;> simp [hs]

/-- `WriteHeader` and `Write` never touch the headers. -/
theorem full_write_header (w : ResponseRec) (sc : Nat) (b : Bytes) :
    ((w.writeHeader sc).write b).header = w.header := by
  unfold ResponseRec.write ResponseRec.writeHeader
  rcases hs : w.status <;> simp [hs]

/-- C9 (amended): on the full-content path (known alias, allowed origin, no
conditional match), for a well-formed stored header (canonical, pairwise
distinct keys): the response carries the stored status code and exactly the
stored content bytes; for every stored header key it carries the LAST
stored value of that key (the per-value `Set` loop collapses multi-valued
headers — see the counterexample); it carries the three `Vary` values
whenever the stored header has no `Vary` key of its own; and it carries the
echoed `Access-Control-Allow-Origin` exactly when the request's Origin is
non-empty, whenever the stored header has no such key (a stored `Vary` or
`Access-Control-Allow-Origin` entry would overwrite these additions). -/
theorem C9_full_path_response (c : Cacher.ResourceCacher) (req : Request)
    (a : String) (res : Cacher.Resource)
    (ha : Cacher.getAliasFromRequest req = .ok a)
    (hres : c.lookup a = some res)
    (horig : res.isOriginAllowed (req.header.get "Origin") = true)
    (hnm : ¬(req.header.get "If-None-Match" ≠ "" ∧
      res.hash = req.header.get "If-None-Match"))
    (hcanon : ∀ kv ∈ res.header, canonicalKey kv.1 = kv.1)
    (hdist : res.header.Pairwise (fun x y => x.1 ≠ y.1)) :
    (c.serveHTTP req).status = some res.statusCode ∧
    (c.serveHTTP req).body = res.content ∧
    (∀ k vs v, (k, vs) ∈ res.header → vs.getLast? = some v →
      ((c.serveHTTP req).header).find k = some [v]) ∧
    ((∀ kv ∈ res.header, kv.1 ≠ "Vary") →
      ((c.serveHTTP req).header).find "Vary" =
        some ["Origin", "Access-Control-Request-Method",
          "Access-Control-Request-Headers"]) ∧
    (req.header.get "Origin" ≠ "" →
      (∀ kv ∈ res.header, kv.1 ≠ "Access-Control-Allow-Origin") →
      ((c.serveHTTP req).header).find "Access-Control-Allow-Origin" =
        some [req.header.get "Origin"]) ∧
    (req.header.get "Origin" = "" →
      (∀ kv ∈ res.header, kv.1 ≠ "Access-Control-Allow-Origin") →
      ((c.serveHTTP req).header).find "Access-Control-Allow-Origin" = none) := by
  have hcond : (req.header.get "If-None-Match" != "" &&
      (res.hash == req.header.get "If-None-Match")) = false := by
    by_cases hm : req.header.get "If-None-Match" = ""
    · simp [hm]
    · have hh : ¬(res.hash = req.header.get "If-None-Match") :=
        fun hh => hnm ⟨hm, hh⟩
      simp [hm, hh]
  have hw : c.serveHTTP req =
      ((res.writeHeaders (Cacher.writeCommonHeaders ResponseRec.empty
        req)).writeHeader res.statusCode).write res.content := by
    unfold Cacher.ResourceCacher.serveHTTP
    rw [ha]
    simp only [hres]
    simp [horig, hcond]
  have hwstat : (res.writeHeaders
      (Cacher.writeCommonHeaders ResponseRec.empty req)).status = none := by
    unfold Cacher.Resource.writeHeaders
    rw [Cacher.writeEntries_status, wch_status]
    rfl
  have hwbody : (res.writeHeaders
      (Cacher.writeCommonHeaders ResponseRec.empty req)).body = [] := by
    unfold Cacher.Resource.writeHeaders
    rw [Cacher.writeEntries_body, wch_body]
    rfl
  refine ⟨?_, ?_, ?_, ?_, ?_, ?_⟩
  · rw [hw, full_write_status _ _ _ hwstat]
  · rw [hw, full_write_body, hwbody]
    rfl
  · intro k vs v hmem hlast
    rw [hw, full_write_header]
    unfold Cacher.Resource.writeHeaders
    exact Cacher.find_writeEntries_mem k vs v hlast res.header _ hcanon hdist hmem
  · intro hv
    rw [hw, full_write_header]
    unfold Cacher.Resource.writeHeaders
    rw [Cacher.find_writeEntries_notmem _ _ _
      (fun kv hkv => by rw [hcanon kv hkv]; exact hv kv hkv)]
    exact wch_empty_find_vary req
  · intro ho hacao
    rw [hw, full_write_header]
    unfold Cacher.Resource.writeHeaders
    rw [Cacher.find_writeEntries_notmem _ _ _
      (fun kv hkv => by rw [hcanon kv hkv]; exact hacao kv hkv)]
    exact wch_empty_find_acao_pos req ho
  · intro ho hacao
    rw [hw, full_write_header]
    unfold Cacher.Resource.writeHeaders
    rw [Cacher.find_writeEntries_notmem _ _ _
      (fun kv hkv => by rw [hcanon kv hkv]; exact hacao kv hkv)]
    exact wch_empty_find_acao_neg req ho

/-- A resource with two stored headers and status 201, addressable as `a`. -/
def fullRes : Cacher.Resource :=
  ⟨"a", "GET", "http://u/x", 1000000000, [9, 8],
    [("Content-Type", ["application/json"]), ("X-Multi", ["a", "b"])],
    201, "h", none, none, true⟩

/-- A cacher holding only `fullRes` under alias `a`. -/
def fullCacher : Cacher.ResourceCacher := ⟨[("a", fullRes)], false, false⟩

/-- A request for alias `a` with `Origin: http://o` and no conditional. -/
def fullReq : Request := ⟨some ("a", []), [("Origin", ["http://o"])]⟩

/-- Witness for C9 at a concrete input. -/
theorem C9_full_path_response_witness :
    Cacher.getAliasFromRequest fullReq = .ok "a" ∧
    fullCacher.lookup "a" = some fullRes ∧
    fullRes.isOriginAllowed (fullReq.header.get "Origin") = true ∧
    ¬(fullReq.header.get "If-None-Match" ≠ "" ∧
      fullRes.hash = fullReq.header.get "If-None-Match") ∧
    (∀ kv ∈ fullRes.header, canonicalKey kv.1 = kv.1) ∧
    fullRes.header.Pairwise (fun x y => x.1 ≠ y.1) ∧
    ((fullCacher.serveHTTP fullReq).status = some fullRes.statusCode ∧
      (fullCacher.serveHTTP fullReq).body = fullRes.content ∧
      (∀ k vs v, (k, vs) ∈ fullRes.header → vs.getLast? = some v →
        ((fullCacher.serveHTTP fullReq).header).find k = some [v]) ∧
      ((∀ kv ∈ fullRes.header, kv.1 ≠ "Vary") →
        ((fullCacher.serveHTTP fullReq).header).find "Vary" =
          some ["Origin", "Access-Control-Request-Method",
            "Access-Control-Request-Headers"]) ∧
      (fullReq.header.get "Origin" ≠ "" →
        (∀ kv ∈ fullRes.header, kv.1 ≠ "Access-Control-Allow-Origin") →
        ((fullCacher.serveHTTP fullReq).header).find
          "Access-Control-Allow-Origin" = some [fullReq.header.get "Origin"]) ∧
      (fullReq.header.get "Origin" = "" →
        (∀ kv ∈ fullRes.header, kv.1 ≠ "Access-Control-Allow-Origin") →
        ((fullCacher.serveHTTP fullReq).header).find
          "Access-Control-Allow-Origin" = none)) :=
  ⟨rfl, rfl, rfl, by decide, by decide, by decide,
    C9_full_path_response fullCacher fullReq "a" fullRes rfl rfl rfl
      (by decide) (by decide) (by decide)⟩

/-- A resource storing a multi-valued header `X-Multi: a, b`. -/
def multiRes : Cacher.Resource :=
  ⟨"a", "GET", "http://u/x", 1000000000, [1], [("X-Multi", ["a", "b"])],
    200, "h", none, none, true⟩

/-- A cacher holding only `multiRes` under alias `a`. -/
def multiCacher : Cacher.ResourceCacher := ⟨[("a", multiRes)], false, false⟩

/-- C9 counterexample: the resource stores the two values `a` and `b` under
`X-Multi`, but the served response carries only the last one — the value
`a` is missing, so the response does not contain every stored header
value. -/
theorem C9_counterexample :
    multiRes.header.find "X-Multi" = some ["a", "b"] ∧
    ((multiCacher.serveHTTP noINMReq).header).find "X-Multi" = some ["b"] ∧
    ¬ "a" ∈ (((multiCacher.serveHTTP noINMReq).header).find "X-Multi").getD [] :=
  ⟨rfl, by decide, by decide⟩
